import Mathlib

/-!
A shallow embedding of the Student Finance Tracker (`script.js`).

JavaScript numbers are modelled as rationals (`ℚ`): every claim under
verification is an exact-arithmetic identity or ordering over amounts,
and the source performs only `+`, `-`, `*`, `/`, `max`, `min` and
comparisons on them.  Transactions are the record type stored in the
`transactions` array; the DOM side effects of each render function are
captured by pure functions computing exactly the values the source
assigns (bar widths, class toggles, chart inputs).
-/

namespace SFT

/-- A transaction record, as constructed in `addTransaction`. -/
structure Transaction where
  id : String
  type : String
  amount : ℚ
  category : String
  date : String
  desc : String
deriving Repr, DecidableEq

/-- Category options per type (`CATEGORIES.income` in the source). -/
def CATEGORIES_income : List String :=
  ["Gaji", "Freelance", "Beasiswa", "Hadiah", "Investasi", "Bonus", "Bisnis",
   "Part-time", "Komisi", "Transfer Masuk", "Lainnya"]

/-- Category options per type (`CATEGORIES.expense` in the source). -/
def CATEGORIES_expense : List String :=
  ["Makanan", "Minuman", "Transportasi", "Pendidikan", "Hiburan", "Kos/Sewa",
   "Listrik & Air", "Internet & Pulsa", "Kesehatan", "Belanja", "Langganan",
   "Laundry", "Parkir", "Bensin", "Pakaian", "Perawatan Diri", "Donasi",
   "Cicilan", "Tabungan", "Lainnya"]

/-- Chart colour palette for pie chart slices (`PIE_COLORS` in the source). -/
def PIE_COLORS : List String :=
  ["#6366f1", "#818cf8", "#a78bfa", "#c084fc",
   "#f472b6", "#fb7185", "#f87171", "#fbbf24",
   "#34d399", "#2dd4bf"]

/-- Result record of `calcTotals`. -/
structure Totals where
  income : ℚ
  expense : ℚ
  balance : ℚ
deriving Repr, DecidableEq

/-- `calcTotals` from the source: income is the reduce-sum of amounts of
transactions whose `type` is `'income'`, expense likewise for `'expense'`,
and `balance` is `income - expense`. -/
def calcTotals (transactions : List Transaction) : Totals :=
  let income :=
    (transactions.filter (fun t => t.type == "income")).foldl (fun s t => s + t.amount) 0
  let expense :=
    (transactions.filter (fun t => t.type == "expense")).foldl (fun s t => s + t.amount) 0
  { income := income, expense := expense, balance := income - expense }

/-- The progress-bar percentage computed in `renderSummary`:
`income > 0 ? Math.max(0, Math.min(100, (balance / income) * 100)) : 0`. -/
def balancePercent (transactions : List Transaction) : ℚ :=
  let t := calcTotals transactions
  if 0 < t.income then max 0 (min 100 (t.balance / t.income * 100)) else 0

/-- The alert-banner visibility computed in `renderSummary`:
`expense > income && income > 0`. -/
def overspendAlert (transactions : List Transaction) : Bool :=
  let t := calcTotals transactions
  decide (t.income < t.expense ∧ 0 < t.income)

/-- `deleteTransaction` from the source:
`transactions = transactions.filter((t) => t.id !== id)`. -/
def deleteTransaction (id : String) (transactions : List Transaction) : List Transaction :=
  transactions.filter (fun t => t.id != id)

/-- A mutation of the transaction store: `addTransaction` pushes a record at
the end of the array, `deleteTransaction` filters by id. -/
inductive Op where
  | add (t : Transaction)
  | remove (id : String)

/-- Apply one store mutation to the transaction list. -/
def applyOp (transactions : List Transaction) : Op → List Transaction
  | Op.add t => transactions ++ [t]
  | Op.remove id => deleteTransaction id transactions

/-- The transaction list obtained by running a sequence of add/remove
operations from the initial empty store. -/
def runOps (ops : List Op) : List Transaction :=
  ops.foldl applyOp []

/-- One step of the grouping loop in `renderPieChart`:
`grouped[t.category] = (grouped[t.category] || 0) + t.amount`, on a JS object
modelled as an association list whose string keys keep insertion order. -/
def groupAdd (grouped : List (String × ℚ)) (category : String) (amount : ℚ) :
    List (String × ℚ) :=
  match grouped with
  | [] => [(category, amount)]
  | (k, v) :: rest =>
    if k = category then (k, v + amount) :: rest
    else (k, v) :: groupAdd rest category amount

/-- The `grouped` object built by `renderPieChart` over the expense
transactions. -/
def expenseByCategory (transactions : List Transaction) : List (String × ℚ) :=
  (transactions.filter (fun t => t.type == "expense")).foldl
    (fun grouped t => groupAdd grouped t.category t.amount) []

/-- `labels = Object.keys(grouped)` in `renderPieChart`. -/
def pieLabels (transactions : List Transaction) : List String :=
  (expenseByCategory transactions).map Prod.fst

/-- `data = Object.values(grouped)` in `renderPieChart`. -/
def pieData (transactions : List Transaction) : List ℚ :=
  (expenseByCategory transactions).map Prod.snd

/-- The dataset colour array passed to the chart in `renderPieChart`:
`PIE_COLORS.slice(0, labels.length)`. -/
def pieBackgroundColor (transactions : List Transaction) : List String :=
  PIE_COLORS.take (pieLabels transactions).length

/-- The empty-state visibility in `renderPieChart`: shown exactly when
`labels.length === 0` (and then no chart is created). -/
def pieEmptyVisible (transactions : List Transaction) : Bool :=
  decide ((pieLabels transactions).length = 0)

/-- Modelled from the spec: the colour finally applied to slice `i` of the
category chart.  The charting library consuming `backgroundColor` is not part
of `src/`; per the spec, colours are "drawn from a fixed palette cycling if
categories exceed palette size", i.e. the provided array is indexed modulo its
length.  The array provided by the source is `pieBackgroundColor`. -/
def sliceColor (transactions : List Transaction) (i : Nat) : String :=
  let colors := pieBackgroundColor transactions
  colors.getD (i % colors.length) "#000000"

/-- First-seen deduplication of a list of keys: the order in which string keys
enter a JS object.  Used to state the "first-seen order" part of the spec. -/
def dedupFirst (l : List String) : List String :=
  l.foldl (fun acc c => if c ∈ acc then acc else acc ++ [c]) []

/-- The comparator of `renderTable`,
`(a, b) => b.date.localeCompare(a.date) || b.id.localeCompare(a.id)`,
expressed as a boolean "a may come before b" relation: later date first, and
on equal dates the larger id first. -/
def tableLe (a b : Transaction) : Bool :=
  decide (b.date < a.date ∨ (b.date = a.date ∧ b.id ≤ a.id))

/-- The row list rendered by `renderTable`: the transactions sorted by the
comparator, then filtered by type unless the filter is `'all'`. -/
def renderTableList (filterType : String) (transactions : List Transaction) :
    List Transaction :=
  let list := transactions.mergeSort tableLe
  if filterType ≠ "all" then list.filter (fun t => t.type == filterType) else list

/-- The empty-state visibility in `renderTable`: shown exactly when the
sorted-and-filtered list has length 0. -/
def tableEmptyVisible (filterType : String) (transactions : List Transaction) : Bool :=
  decide ((renderTableList filterType transactions).length = 0)

/-- A savings goal (`savingsGoal` in the source). -/
structure Goal where
  name : String
  target : ℚ
deriving Repr, DecidableEq

/-- The values computed by `renderGoal`: `saved = Math.max(0, balance)`,
`pct = Math.min(100, (saved / savingsGoal.target) * 100)`, and the remaining
amount `savingsGoal.target - saved` shown in the goal note. -/
structure GoalProgress where
  saved : ℚ
  remaining : ℚ
  percent : ℚ
deriving Repr, DecidableEq

/-- The goal-progress computation of `renderGoal` for a set goal. -/
def goalProgress (transactions : List Transaction) (goal : Goal) : GoalProgress :=
  let balance := (calcTotals transactions).balance
  let saved := max 0 balance
  let pct := min 100 (saved / goal.target * 100)
  { saved := saved, remaining := goal.target - saved, percent := pct }

/-- The goal state: the in-memory `savingsGoal` and the value persisted under
the `sft_goal` storage key. -/
structure GoalState where
  savingsGoal : Option Goal
  storedGoal : Option Goal
deriving Repr, DecidableEq

/-- `setGoal` from the source.  `name` is the value of
`dom.goalName.value.trim()` and `targetParsed` the result of
`parseFloat(dom.goalAmount.value)`, with `none` standing for `NaN`
(non-numeric input).  The guard `if (!name || !target || target <= 0) return;`
rejects an empty trimmed name, a `NaN` target, a zero target (falsy) and a
non-positive target; otherwise the goal is replaced and persisted. -/
def setGoal (name : String) (targetParsed : Option ℚ) (st : GoalState) : GoalState :=
  match targetParsed with
  | none => st
  | some target =>
    if name = "" ∨ target = 0 ∨ target ≤ 0 then st
    else
      { savingsGoal := some { name := name, target := target },
        storedGoal := some { name := name, target := target } }

/-- The scenario ledger of the spec: income 5,000,000 (Gaji, 2024-01-01) and
expense 2,000,000 (Makanan, 2024-01-02), so the balance is 3,000,000. -/
def scenarioTransactions : List Transaction :=
  [{ id := "a1", type := "income", amount := 5000000, category := "Gaji",
     date := "2024-01-01", desc := "" },
   { id := "a2", type := "expense", amount := 2000000, category := "Makanan",
     date := "2024-01-02", desc := "" }]

/-- The all-expense scenario ledger of the spec: one expense of 100,000 and
zero income. -/
def expenseOnlyTransactions : List Transaction :=
  [{ id := "e1", type := "expense", amount := 100000, category := "Makanan",
     date := "2024-01-03", desc := "" }]

lemma foldl_add_amount (l : List Transaction) (c : ℚ) :
    l.foldl (fun s t => s + t.amount) c = c + (l.map (fun t => t.amount)).sum := by
  induction l generalizing c with
  | nil => simp
  | cons t rest ih => simp [ih, add_assoc]

lemma calcTotals_income (transactions : List Transaction) :
    (calcTotals transactions).income =
      ((transactions.filter (fun t => t.type == "income")).map (fun t => t.amount)).sum := by
  simp [calcTotals, foldl_add_amount]

lemma calcTotals_expense (transactions : List Transaction) :
    (calcTotals transactions).expense =
      ((transactions.filter (fun t => t.type == "expense")).map (fun t => t.amount)).sum := by
  simp [calcTotals, foldl_add_amount]

/-- C1: for every transaction list (hence after every sequence of add/remove
operations, since the totals are recomputed from scratch on each query),
`balance = income - expense` exactly, where income and expense are the sums of
amounts of the transactions of the corresponding type. -/
theorem totals_balance_identity :
    (∀ transactions : List Transaction,
      (calcTotals transactions).balance =
        (calcTotals transactions).income - (calcTotals transactions).expense ∧
      (calcTotals transactions).income =
        ((transactions.filter (fun t => t.type == "income")).map (fun t => t.amount)).sum ∧
      (calcTotals transactions).expense =
        ((transactions.filter (fun t => t.type == "expense")).map (fun t => t.amount)).sum) ∧
    ∀ ops : List Op,
      (calcTotals (runOps ops)).balance =
        (calcTotals (runOps ops)).income - (calcTotals (runOps ops)).expense :=
  ⟨fun transactions =>
    ⟨rfl, calcTotals_income transactions, calcTotals_expense transactions⟩, fun _ => rfl⟩

/-- C2: the balance-percent value is always in `[0, 100]`; when income is
positive it is the clamp of `balance / income * 100` to `[0, 100]`, and when
income is zero it is `0`. -/
theorem balancePercent_in_range (transactions : List Transaction) :
    0 ≤ balancePercent transactions ∧ balancePercent transactions ≤ 100 ∧
    (0 < (calcTotals transactions).income →
      balancePercent transactions =
        max 0 (min 100
          ((calcTotals transactions).balance / (calcTotals transactions).income * 100))) ∧
    ((calcTotals transactions).income = 0 → balancePercent transactions = 0) := by
  unfold balancePercent
  by_cases h : 0 < (calcTotals transactions).income
  · rw [if_pos h]
    refine ⟨le_max_left _ _, max_le (by norm_num) (min_le_left _ _), fun _ => rfl, ?_⟩
    intro h0
    rw [h0] at h
    exact absurd h (lt_irrefl 0)
  · rw [if_neg h]
    exact ⟨le_refl 0, by norm_num, fun h' => absurd h' h, fun _ => rfl⟩

/-- Witness for C2 at the scenario ledger, exercising the positive-income
branch. -/
theorem balancePercent_in_range_witness :
    0 < (calcTotals scenarioTransactions).income ∧
      balancePercent scenarioTransactions =
        max 0 (min 100
          ((calcTotals scenarioTransactions).balance /
            (calcTotals scenarioTransactions).income * 100)) :=
  ⟨by simp [calcTotals, scenarioTransactions],
    (balancePercent_in_range scenarioTransactions).2.2.1
      (by simp [calcTotals, scenarioTransactions])⟩

/-- C4: the overspend alert is shown iff `expense > income` and `income > 0`;
in particular an all-expense ledger (zero income) never triggers it. -/
theorem overspendAlert_iff (transactions : List Transaction) :
    (overspendAlert transactions = true ↔
      (calcTotals transactions).income < (calcTotals transactions).expense ∧
        0 < (calcTotals transactions).income) ∧
    ((∀ t ∈ transactions, t.type = "expense") → overspendAlert transactions = false) := by
  constructor
  · exact decide_eq_true_iff
  · intro h
    have hincome : (calcTotals transactions).income = 0 := by
      rw [calcTotals_income]
      have : transactions.filter (fun t => t.type == "income") = [] := by
        rw [List.filter_eq_nil_iff]
        intro t ht
        simp [h t ht]
      simp [this]
    unfold overspendAlert
    simp [hincome]

/-- Witness for C4 at the all-expense scenario: expense 100,000 and zero
income do not trigger the alert. -/
theorem overspendAlert_iff_witness :
    overspendAlert expenseOnlyTransactions = false :=
  (overspendAlert_iff expenseOnlyTransactions).2 (by decide)

/-- C6: removing an id that is absent from the transaction list leaves the
list unchanged. -/
theorem deleteTransaction_absent_noop (id : String) (transactions : List Transaction)
    (h : ∀ t ∈ transactions, t.id ≠ id) :
    deleteTransaction id transactions = transactions := by
  unfold deleteTransaction
  rw [List.filter_eq_self]
  intro t ht
  simpa using h t ht

/-- Witness for C6: deleting the id `"zzz"`, absent from the scenario ledger,
changes nothing. -/
theorem deleteTransaction_absent_noop_witness :
    deleteTransaction "zzz" scenarioTransactions = scenarioTransactions :=
  deleteTransaction_absent_noop "zzz" scenarioTransactions (by decide)

/-- C10: the delete operation removes every transaction carrying the given id,
keeps the result a sublist of the original (relative order preserved), and
retains every transaction with a different id. -/
theorem deleteTransaction_removes_all (id : String) (transactions : List Transaction) :
    (∀ t ∈ deleteTransaction id transactions, t.id ≠ id) ∧
    (deleteTransaction id transactions).Sublist transactions ∧
    (∀ t ∈ transactions, t.id ≠ id → t ∈ deleteTransaction id transactions) := by
  refine ⟨?_, List.filter_sublist _, ?_⟩
  · intro t ht
    have := List.of_mem_filter ht
    simpa using this
  · intro t ht hne
    exact List.mem_filter.mpr ⟨ht, by simpa using hne⟩

/-- Witness for C10: deleting `"a1"` from the scenario ledger keeps the other
record. -/
theorem deleteTransaction_removes_all_witness :
    ({ id := "a2", type := "expense", amount := 2000000, category := "Makanan",
       date := "2024-01-02", desc := "" } : Transaction) ∈
      deleteTransaction "a1" scenarioTransactions :=
  (deleteTransaction_removes_all "a1" scenarioTransactions).2.2 _ (by decide) (by decide)

/-- C5: for every transaction list and goal with positive target, the goal
progress has `saved = max 0 balance`, `percent = min 100 (saved/target*100)`
staying in `[0, 100]`, and `remaining = target - saved`; with the scenario
balance 3,000,000 and target 10,000,000 it is
`{saved := 3000000, remaining := 7000000, percent := 30}`. -/
theorem goalProgress_spec :
    (∀ (transactions : List Transaction) (goal : Goal), 0 < goal.target →
      (goalProgress transactions goal).saved = max 0 (calcTotals transactions).balance ∧
      (goalProgress transactions goal).percent =
        min 100 ((goalProgress transactions goal).saved / goal.target * 100) ∧
      0 ≤ (goalProgress transactions goal).percent ∧
      (goalProgress transactions goal).percent ≤ 100 ∧
      (goalProgress transactions goal).remaining =
        goal.target - (goalProgress transactions goal).saved) ∧
    goalProgress scenarioTransactions { name := "Laptop", target := 10000000 } =
      { saved := 3000000, remaining := 7000000, percent := 30 } := by
  constructor
  · intro transactions goal hpos
    refine ⟨rfl, rfl, ?_, min_le_left _ _, rfl⟩
    show (0:ℚ) ≤ min 100 (max 0 (calcTotals transactions).balance / goal.target * 100)
    have h0 : (0:ℚ) ≤ max 0 (calcTotals transactions).balance / goal.target * 100 :=
      mul_nonneg (div_nonneg (le_max_left _ _) hpos.le) (by norm_num)
    exact le_min (by norm_num) h0
  · have htot : calcTotals scenarioTransactions =
        { income := 5000000, expense := 2000000, balance := 3000000 } := by
      simp [calcTotals, scenarioTransactions]
      norm_num
    simp [goalProgress, htot]
    norm_num

/-- Witness for C5: the general part of the claim applied at the scenario
ledger and the `Laptop` goal. -/
theorem goalProgress_spec_witness :
    0 < ({ name := "Laptop", target := 10000000 } : Goal).target ∧
      0 ≤ (goalProgress scenarioTransactions
            { name := "Laptop", target := 10000000 }).percent ∧
      (goalProgress scenarioTransactions
        { name := "Laptop", target := 10000000 }).percent ≤ 100 :=
  ⟨by norm_num,
    (goalProgress_spec.1 scenarioTransactions _ (by norm_num)).2.2.1,
    (goalProgress_spec.1 scenarioTransactions _ (by norm_num)).2.2.2.1⟩

/-- C7: `setGoal` leaves both the in-memory and the persisted goal unchanged
when the trimmed name is empty, the target fails to parse (`NaN`), or the
target is not positive; otherwise it replaces the goal with
`{name := trimmed name, target := target}` in memory and in storage. -/
theorem setGoal_validation (name : String) (targetParsed : Option ℚ) (st : GoalState) :
    ((name = "" ∨ targetParsed = none ∨
        (∃ t : ℚ, targetParsed = some t ∧ t ≤ 0)) →
      setGoal name targetParsed st = st) ∧
    (∀ t : ℚ, targetParsed = some t → name ≠ "" → 0 < t →
      setGoal name targetParsed st =
        { savingsGoal := some { name := name, target := t },
          storedGoal := some { name := name, target := t } }) := by
  cases targetParsed with
  | none =>
    refine ⟨fun _ => rfl, fun t ht => ?_⟩
    exact absurd ht (by simp)
  | some target =>
    constructor
    · intro h
      have hcond : name = "" ∨ target = 0 ∨ target ≤ 0 := by
        rcases h with h | h | ⟨t, ht, hle⟩
        · exact Or.inl h
        · exact absurd h (by simp)
        · have : target = t := by injection ht
          exact Or.inr (Or.inr (this ▸ hle))
      simp only [setGoal]
      rw [if_pos hcond]
    · intro t ht hname hpos
      have heq : target = t := by injection ht
      subst heq
      have hcond : ¬(name = "" ∨ target = 0 ∨ target ≤ 0) := by
        push_neg
        exact ⟨hname, ne_of_gt hpos, hpos⟩
      simp only [setGoal]
      rw [if_neg hcond]

/-- Witness for C7: a valid goal input is stored both in memory and in
storage. -/
theorem setGoal_validation_witness :
    setGoal "Laptop" (some 10000000) { savingsGoal := none, storedGoal := none } =
      { savingsGoal := some { name := "Laptop", target := 10000000 },
        storedGoal := some { name := "Laptop", target := 10000000 } } :=
  (setGoal_validation "Laptop" (some 10000000) _).2 10000000 rfl (by decide) (by norm_num)

lemma groupAdd_map_fst (g : List (String × ℚ)) (c : String) (a : ℚ) :
    (groupAdd g c a).map Prod.fst =
      if c ∈ g.map Prod.fst then g.map Prod.fst else g.map Prod.fst ++ [c] := by
  induction g with
  | nil => simp [groupAdd]
  | cons p rest ih =>
    obtain ⟨k, v⟩ := p
    by_cases hk : k = c
    · subst hk
      simp [groupAdd]
    · have hck : ¬c = k := fun h => hk h.symm
      simp only [groupAdd, if_neg hk, List.map_cons, List.mem_cons, hck, false_or]
      by_cases hmem : c ∈ rest.map Prod.fst
      · simp [hmem, ih]
      · simp [hmem, ih]

lemma groupAdd_snd_sum (g : List (String × ℚ)) (c : String) (a : ℚ) :
    ((groupAdd g c a).map Prod.snd).sum = (g.map Prod.snd).sum + a := by
  induction g with
  | nil => simp [groupAdd]
  | cons p rest ih =>
    obtain ⟨k, v⟩ := p
    by_cases hk : k = c
    · subst hk
      simp [groupAdd]
      ring
    · simp [groupAdd, hk, ih]
      ring

lemma groupAdd_pos (g : List (String × ℚ)) (c : String) (a : ℚ)
    (hg : ∀ p ∈ g, 0 < p.2) (ha : 0 < a) : ∀ p ∈ groupAdd g c a, 0 < p.2 := by
  induction g with
  | nil =>
    intro p hp
    rw [groupAdd, List.mem_singleton] at hp
    subst hp
    exact ha
  | cons q rest ih =>
    obtain ⟨k, v⟩ := q
    intro p hp
    rw [groupAdd] at hp
    by_cases hk : k = c
    · rw [if_pos hk] at hp
      rcases List.mem_cons.mp hp with h1 | h1
      · subst h1
        have hv : 0 < v := hg (k, v) (List.mem_cons_self _ _)
        exact add_pos hv ha
      · exact hg p (List.mem_cons_of_mem _ h1)
    · rw [if_neg hk] at hp
      rcases List.mem_cons.mp hp with h1 | h1
      · subst h1
        exact hg (k, v) (List.mem_cons_self _ _)
      · exact ih (fun q hq => hg q (List.mem_cons_of_mem _ hq)) p h1

lemma foldl_groupAdd_snd_sum (l : List Transaction) (g : List (String × ℚ)) :
    ((l.foldl (fun grouped t => groupAdd grouped t.category t.amount) g).map Prod.snd).sum =
      (g.map Prod.snd).sum + (l.map (fun t => t.amount)).sum := by
  induction l generalizing g with
  | nil => simp
  | cons t rest ih => simp [ih, groupAdd_snd_sum, add_assoc]

lemma foldl_groupAdd_fst (l : List Transaction) (g : List (String × ℚ)) :
    (l.foldl (fun grouped t => groupAdd grouped t.category t.amount) g).map Prod.fst =
      (l.map (fun t => t.category)).foldl
        (fun acc c => if c ∈ acc then acc else acc ++ [c]) (g.map Prod.fst) := by
  induction l generalizing g with
  | nil => simp
  | cons t rest ih => simp [ih, groupAdd_map_fst]

lemma foldl_groupAdd_pos (l : List Transaction) (g : List (String × ℚ))
    (hg : ∀ p ∈ g, 0 < p.2) (hl : ∀ t ∈ l, 0 < t.amount) :
    ∀ p ∈ l.foldl (fun grouped t => groupAdd grouped t.category t.amount) g, 0 < p.2 := by
  induction l generalizing g with
  | nil => simpa using hg
  | cons t rest ih =>
    exact ih _ (groupAdd_pos g _ _ hg (hl t (by simp)))
      (fun u hu => hl u (by simp [hu]))

lemma expenseByCategory_fst (transactions : List Transaction) :
    (expenseByCategory transactions).map Prod.fst =
      dedupFirst
        ((transactions.filter (fun t => t.type == "expense")).map (fun t => t.category)) := by
  simp [expenseByCategory, dedupFirst, foldl_groupAdd_fst]

lemma expenseByCategory_sum (transactions : List Transaction) :
    ((expenseByCategory transactions).map Prod.snd).sum = (calcTotals transactions).expense := by
  simp [expenseByCategory, foldl_groupAdd_snd_sum, calcTotals_expense]

lemma expenseByCategory_pos (transactions : List Transaction)
    (hpos : ∀ t ∈ transactions, 0 < t.amount) :
    ∀ p ∈ expenseByCategory transactions, 0 < p.2 :=
  foldl_groupAdd_pos _ [] (by simp)
    (fun t ht => hpos t (List.mem_of_mem_filter ht))

/-- C3: the expense-by-category mapping has no zero-valued category (under the
data-model invariant that amounts are positive), its values sum to the total
expense, and its keys are the expense categories in first-seen order. -/
theorem expenseByCategory_spec (transactions : List Transaction)
    (hpos : ∀ t ∈ transactions, 0 < t.amount) :
    (∀ p ∈ expenseByCategory transactions, p.2 ≠ 0) ∧
    ((expenseByCategory transactions).map Prod.snd).sum = (calcTotals transactions).expense ∧
    (expenseByCategory transactions).map Prod.fst =
      dedupFirst
        ((transactions.filter (fun t => t.type == "expense")).map (fun t => t.category)) :=
  ⟨fun p hp => (expenseByCategory_pos transactions hpos p hp).ne',
    expenseByCategory_sum transactions, expenseByCategory_fst transactions⟩

/-- Witness for C3 at the scenario ledger: one expense category `Makanan`
totalling the whole expense. -/
theorem expenseByCategory_spec_witness :
    ((expenseByCategory scenarioTransactions).map Prod.snd).sum =
      (calcTotals scenarioTransactions).expense :=
  (expenseByCategory_spec scenarioTransactions
    (by intro t ht
        simp [scenarioTransactions] at ht
        rcases ht with h | h <;> subst h <;> norm_num)).2.1

lemma tableLe_trans : ∀ a b c : Transaction,
    tableLe a b = true → tableLe b c = true → tableLe a c = true := by
  intro a b c hab hbc
  simp only [tableLe, decide_eq_true_eq] at hab hbc ⊢
  rcases hab with h1 | ⟨h1, h1'⟩ <;> rcases hbc with h2 | ⟨h2, h2'⟩
  · exact Or.inl (lt_trans h2 h1)
  · exact Or.inl (lt_of_le_of_lt (le_of_eq h2) h1)
  · exact Or.inl (lt_of_lt_of_le h2 (le_of_eq h1))
  · exact Or.inr ⟨h2.trans h1, le_trans h2' h1'⟩

lemma tableLe_total : ∀ a b : Transaction, (tableLe a b || tableLe b a) = true := by
  intro a b
  simp only [tableLe, Bool.or_eq_true, decide_eq_true_eq]
  rcases lt_trichotomy a.date b.date with h | h | h
  · exact Or.inr (Or.inl h)
  · rcases le_total b.id a.id with hid | hid
    · exact Or.inl (Or.inr ⟨h.symm, hid⟩)
    · exact Or.inr (Or.inr ⟨h, hid⟩)
  · exact Or.inl (Or.inl h)

/-- C8: the rendered table is sorted by date descending with ties broken by id
descending, is a permutation of the type-filtered transactions (of all of them
when the filter is `'all'`), and the empty-state indicator is shown exactly
when it is empty. -/
theorem renderTable_spec (filterType : String) (transactions : List Transaction) :
    (renderTableList filterType transactions).Pairwise
      (fun a b => b.date < a.date ∨ (b.date = a.date ∧ b.id ≤ a.id)) ∧
    (renderTableList filterType transactions).Perm
      (if filterType = "all" then transactions
       else transactions.filter (fun t => t.type == filterType)) ∧
    (tableEmptyVisible filterType transactions = true ↔
      renderTableList filterType transactions = []) := by
  have hsorted : (transactions.mergeSort tableLe).Pairwise
      (fun a b => b.date < a.date ∨ (b.date = a.date ∧ b.id ≤ a.id)) := by
    refine (List.sorted_mergeSort tableLe_trans tableLe_total transactions).imp ?_
    intro a b h
    simpa [tableLe, decide_eq_true_eq] using h
  have hperm := List.mergeSort_perm transactions tableLe
  refine ⟨?_, ?_, ?_⟩
  · unfold renderTableList
    by_cases hf : filterType = "all"
    · simpa [hf] using hsorted
    · simp only [ne_eq, hf, not_false_iff, if_true]
      exact List.Pairwise.sublist (List.filter_sublist _) hsorted
  · unfold renderTableList
    by_cases hf : filterType = "all"
    · simpa [hf] using hperm
    · simp only [ne_eq, hf, not_false_iff, if_true, if_neg hf]
      exact hperm.filter _
  · simp [tableEmptyVisible, List.length_eq_zero]

/-- Witness for C8: for the scenario ledger and the `'all'` filter, the table
is a permutation of the stored transactions. -/
theorem renderTable_spec_witness :
    (renderTableList "all" scenarioTransactions).Perm scenarioTransactions := by
  have h := (renderTable_spec "all" scenarioTransactions).2.1
  simpa using h

lemma mem_foldl_dedup (l : List String) (acc : List String) (c : String) :
    c ∈ l.foldl (fun acc x => if x ∈ acc then acc else acc ++ [x]) acc ↔
      c ∈ acc ∨ c ∈ l := by
  induction l generalizing acc with
  | nil => simp
  | cons x rest ih =>
    simp only [List.foldl_cons, ih, List.mem_cons]
    by_cases hx : x ∈ acc
    · rw [if_pos hx]
      constructor
      · rintro (h | h)
        · exact Or.inl h
        · exact Or.inr (Or.inr h)
      · rintro (h | h | h)
        · exact Or.inl h
        · exact Or.inl (h ▸ hx)
        · exact Or.inr h
    · rw [if_neg hx]
      simp only [List.mem_append, List.mem_singleton]
      constructor
      · rintro ((h | h) | h)
        · exact Or.inl h
        · exact Or.inr (Or.inl h)
        · exact Or.inr (Or.inr h)
      · rintro (h | h | h)
        · exact Or.inl (Or.inl h)
        · exact Or.inl (Or.inr h)
        · exact Or.inr h

lemma nodup_foldl_dedup (l : List String) (acc : List String) (hacc : acc.Nodup) :
    (l.foldl (fun acc x => if x ∈ acc then acc else acc ++ [x]) acc).Nodup := by
  induction l generalizing acc with
  | nil => simpa using hacc
  | cons x rest ih =>
    simp only [List.foldl_cons]
    by_cases hx : x ∈ acc
    · rw [if_pos hx]
      exact ih acc hacc
    · rw [if_neg hx]
      refine ih _ ?_
      simp [List.nodup_append, hacc, hx]

/-- C9: the pie chart has one slice per category occurring among the expense
transactions (all with positive totals under the data-model invariant), the
colour of slice `i` cycles through the 10-colour palette (`i` modulo the
palette size) although up to 20 expense categories exist, and the chart is
replaced by the empty state exactly when there are no expense
transactions. -/
theorem renderPieChart_spec (transactions : List Transaction)
    (hpos : ∀ t ∈ transactions, 0 < t.amount) :
    PIE_COLORS.length = 10 ∧
    CATEGORIES_expense.length = 20 ∧
    (∀ c, c ∈ pieLabels transactions ↔
      c ∈ (transactions.filter (fun t => t.type == "expense")).map
        (fun t => t.category)) ∧
    (pieLabels transactions).Nodup ∧
    (∀ p ∈ expenseByCategory transactions, 0 < p.2) ∧
    (∀ i, i < (pieLabels transactions).length →
      sliceColor transactions i = PIE_COLORS.getD (i % PIE_COLORS.length) "#000000") ∧
    (pieEmptyVisible transactions = true ↔
      transactions.filter (fun t => t.type == "expense") = []) := by
  have hfst := expenseByCategory_fst transactions
  have hmem : ∀ c, c ∈ pieLabels transactions ↔
      c ∈ (transactions.filter (fun t => t.type == "expense")).map
        (fun t => t.category) := by
    intro c
    unfold pieLabels
    rw [hfst]
    unfold dedupFirst
    rw [mem_foldl_dedup]
    simp
  refine ⟨rfl, rfl, hmem, ?_, expenseByCategory_pos transactions hpos, ?_, ?_⟩
  · unfold pieLabels
    rw [hfst]
    exact nodup_foldl_dedup _ [] List.nodup_nil
  · intro i hi
    unfold sliceColor pieBackgroundColor
    dsimp only
    by_cases hn : (pieLabels transactions).length ≤ PIE_COLORS.length
    · have hlen : (PIE_COLORS.take (pieLabels transactions).length).length =
          (pieLabels transactions).length := by
        simp [List.length_take]
        omega
      rw [hlen, Nat.mod_eq_of_lt hi,
        Nat.mod_eq_of_lt (lt_of_lt_of_le hi hn)]
      rw [List.getD_eq_getElem?_getD, List.getD_eq_getElem?_getD,
        List.getElem?_take, if_pos hi]
    · push_neg at hn
      rw [List.take_of_length_le (le_of_lt hn)]
  · unfold pieEmptyVisible
    rw [decide_eq_true_iff, List.length_eq_zero]
    constructor
    · intro h
      rw [List.eq_nil_iff_forall_not_mem]
      intro t ht
      have : t.category ∈ pieLabels transactions :=
        (hmem t.category).mpr (List.mem_map_of_mem _ ht)
      simp [h] at this
    · intro h
      have : ∀ c, c ∉ pieLabels transactions := by
        intro c hc
        have := (hmem c).mp hc
        simp [h] at this
      exact List.eq_nil_iff_forall_not_mem.mpr this

/-- Witness for C9 at the scenario ledger: one expense category, whose slice
takes the first palette colour. -/
theorem renderPieChart_spec_witness :
    sliceColor scenarioTransactions 0 =
      PIE_COLORS.getD (0 % PIE_COLORS.length) "#000000" :=
  (renderPieChart_spec scenarioTransactions
    (by intro t ht
        simp [scenarioTransactions] at ht
        rcases ht with h | h <;> subst h <;> norm_num)).2.2.2.2.2.1 0
    (by simp [pieLabels, expenseByCategory, scenarioTransactions, groupAdd])

end SFT
